import Mathlib

/-!
Verification of the Suricata agent runtime (Go) against its specification.

The embedding follows the current revision of the runtime package, the one
exercised by the repository's own tests (`runtime_test.go`): `Runtime.Invoke`,
`agentLoop`, `parseToolResponse`, `callTool`, `unmarshalOutput`,
`preparePrompt`, `compilePrompt` (src/unnamed/part_004, first revision),
`PromptBuilder.Build` (src/runtime/prompt.go), `UnmarshalValidate`,
`ValidateRawJSON`, `ValidateJSON`, `ExtractJSONFromString`
(src/runtime/utils.go), and `ChatSession` (src/runtime/invoker.go).
The repository also carries superseded revisions of some of these functions
(src/runtime/runtime.go, src/unnamed/part_006); where relevant those are
embedded separately under a `Legacy` marker.

External collaborators (the Go standard library's `encoding/json` marshalling,
`gojsonschema`, `html/template`, the text-completion `Invoker`, tool callbacks)
are modelled as explicit function parameters, except for the JSON syntax check
used by `ExtractJSONFromString` (`json.Unmarshal` into a `json.RawMessage`),
which is given a concrete executable model (`jsonOk`) so that extraction is
fully computable.
-/

/-! ## Part I: a computable JSON syntax checker

Models the success condition of Go's `json.Unmarshal(data, &js)` with
`js json.RawMessage`: the bytes must form exactly one syntactically valid
JSON value, surrounded by optional whitespace. -/

/-- Whitespace skipping as in `encoding/json`: space, tab, newline, carriage return. -/
def skipWs (l : List Char) : List Char :=
  l.dropWhile (fun c => c = ' ' || c = '\t' || c = '\n' || c = '\r')

/-- Hexadecimal digit test, for `\u` escapes. -/
def isHex (c : Char) : Bool :=
  c.isDigit || ('a' ≤ c && c ≤ 'f') || ('A' ≤ c && c ≤ 'F')

/-- Parse the remainder of a JSON string literal (the opening quote has been
consumed); returns the input after the closing quote. -/
def parseStr : List Char → Option (List Char)
  | [] => none
  | '"' :: rest => some rest
  | '\\' :: e :: rest =>
    if e = '"' || e = '\\' || e = '/' || e = 'b' || e = 'f' || e = 'n' || e = 'r' || e = 't' then
      parseStr rest
    else if e = 'u' then
      match rest with
      | a :: b :: c :: d :: r =>
        if isHex a && isHex b && isHex c && isHex d then parseStr r else none
      | _ => none
    else none
  | c :: rest => if c.val < 0x20 then none else parseStr rest

/-- Longest prefix of decimal digits, with the remaining input. -/
def spanDigits (l : List Char) : List Char × List Char :=
  (l.takeWhile Char.isDigit, l.dropWhile Char.isDigit)

/-- Parse a JSON number; returns the remaining input. -/
def parseNum (l : List Char) : Option (List Char) :=
  let l₁ := match l with
    | '-' :: r => r
    | _ => l
  match l₁ with
  | '0' :: r => parseNumFrac r
  | c :: _ =>
    if c.isDigit then parseNumFrac (spanDigits l₁).2 else none
  | [] => none
where
  /-- Optional fraction part, then optional exponent part. -/
  parseNumFrac (l : List Char) : Option (List Char) :=
    let l₂ := match l with
      | '.' :: r =>
        match spanDigits r with
        | ([], _) => none
        | (_, rest) => some rest
      | _ => some l
    match l₂ with
    | none => none
    | some l₃ =>
      match l₃ with
      | 'e' :: r => parseNumExp r
      | 'E' :: r => parseNumExp r
      | _ => some l₃
  /-- Exponent digits with optional sign. -/
  parseNumExp (l : List Char) : Option (List Char) :=
    let l₄ := match l with
      | '+' :: r => r
      | '-' :: r => r
      | _ => l
    match spanDigits l₄ with
    | ([], _) => none
    | (_, rest) => some rest

mutual

/-- Parse one JSON value; fuel bounds the nesting recursion. -/
def parseVal : Nat → List Char → Option (List Char)
  | 0, _ => none
  | _ + 1, [] => none
  | fuel + 1, c :: rest =>
    if c = '"' then parseStr rest
    else if c = 't' then
      match rest with
      | 'r' :: 'u' :: 'e' :: r => some r
      | _ => none
    else if c = 'f' then
      match rest with
      | 'a' :: 'l' :: 's' :: 'e' :: r => some r
      | _ => none
    else if c = 'n' then
      match rest with
      | 'u' :: 'l' :: 'l' :: r => some r
      | _ => none
    else if c = '{' then
      match skipWs rest with
      | '}' :: r => some r
      | r => parseMembers fuel r
    else if c = '[' then
      match skipWs rest with
      | ']' :: r => some r
      | r => parseElems fuel r
    else parseNum (c :: rest)

/-- Parse object members `"key": value` separated by commas, up to the closing brace. -/
def parseMembers : Nat → List Char → Option (List Char)
  | 0, _ => none
  | fuel + 1, l =>
    match l with
    | '"' :: rest =>
      match parseStr rest with
      | none => none
      | some r₁ =>
        match skipWs r₁ with
        | ':' :: r₂ =>
          match parseVal fuel (skipWs r₂) with
          | none => none
          | some r₃ =>
            match skipWs r₃ with
            | ',' :: r₄ => parseMembers fuel (skipWs r₄)
            | '}' :: r₄ => some r₄
            | _ => none
        | _ => none
    | _ => none

/-- Parse array elements separated by commas, up to the closing bracket. -/
def parseElems : Nat → List Char → Option (List Char)
  | 0, _ => none
  | fuel + 1, l =>
    match parseVal fuel l with
    | none => none
    | some r₁ =>
      match skipWs r₁ with
      | ',' :: r₂ => parseElems fuel (skipWs r₂)
      | ']' :: r₂ => some r₂
      | _ => none

end

/-- Success condition of `json.Unmarshal(data, &js)` for `js json.RawMessage`:
one whole JSON value with optional surrounding whitespace. -/
def jsonOk (s : List Char) : Bool :=
  match parseVal (s.length + 1) (skipWs s) with
  | some r => (skipWs r).isEmpty
  | none => false

/-! ## Part II: JSON extraction (src/runtime/utils.go, `ExtractJSONFromString`)

The Go function scans the input from its first `'{'` byte, keeps a running
brace count, and each time the count returns to zero tries to parse the
substring from the first `'{'` up to the current byte; it returns the first
such candidate that parses, and the empty string if none does.  `'{'` and
`'}'` are ASCII, so byte positions of braces coincide with character
positions and the scan is modelled on `List Char`.  The parse check
(`json.Unmarshal` into a `json.RawMessage`) is the `ok` parameter;
`ExtractJSONFromString` instantiates it with `jsonOk`. -/

/-- The scanning loop of `ExtractJSONFromString`: `seen` is the substring
accumulated from the first brace (Go's `input[start:i+1]`), `depth` the
running brace count.  On `'}'` the count is decremented and, at zero, the
candidate is parse-checked and returned on success. -/
def scanJSON (ok : List Char → Bool) : List Char → List Char → Int → List Char
  | [], _, _ => []
  | c :: cs, seen, depth =>
    if c = '{' then scanJSON ok cs (seen ++ [c]) (depth + 1)
    else if c = '}' then
      if depth - 1 = 0 ∧ ok (seen ++ [c]) = true then seen ++ [c]
      else scanJSON ok cs (seen ++ [c]) (depth - 1)
    else scanJSON ok cs (seen ++ [c]) depth

/-- `ExtractJSONFromString` with the parse check abstracted.  The
`dropWhile` models `strings.Index(input, "\x7b")`: scanning starts at the
first `'{'`, and the result is empty when there is none. -/
def extractJSONCore (ok : List Char → Bool) (input : List Char) : List Char :=
  if (input.dropWhile (fun c => c ≠ '{')).isEmpty then []
  else scanJSON ok (input.dropWhile (fun c => c ≠ '{')) [] 0

/-- ExtractJSONFromString tries to find the first valid JSON object in the
input string (src/runtime/utils.go lines 57-81). -/
def ExtractJSONFromString (input : String) : String :=
  String.mk (extractJSONCore jsonOk input.data)

/-! Declarative reference formulation, used to state the functional-correctness
claim about the extraction algorithm. -/

/-- Net brace balance of a character list. -/
def braceDelta (l : List Char) : Int :=
  (l.count '{' : Int) - (l.count '}' : Int)

/-- Follows the spec's words: the candidate substrings are those running from
the opening brace to a position holding `'}'` at which the brace depth
returns to zero. -/
def jsonCandidates (l : List Char) : List (List Char) :=
  (List.range l.length).filterMap (fun i =>
    if l.get? i = some '}' ∧ braceDelta (l.take (i + 1)) = 0 then some (l.take (i + 1)) else none)

/-- Follows the spec's words: scan for the first `'{'`; each time the brace
depth returns to zero the substring from the opening brace to the current
position is a candidate; return the first candidate that parses as JSON, and
the empty result if there is none. -/
def extractJSONSpec (ok : List Char → Bool) (input : List Char) : List Char :=
  ((jsonCandidates (input.dropWhile (fun c => c ≠ '{'))).filter ok).headD []

/-- Generalisation of `jsonCandidates` to a scan starting with accumulated
prefix `seen` and running depth `d`. -/
def scanCandidates (cs seen : List Char) (d : Int) : List (List Char) :=
  (List.range cs.length).filterMap (fun i =>
    if cs.get? i = some '}' ∧ d + braceDelta (cs.take (i + 1)) = 0 then
      some (seen ++ cs.take (i + 1))
    else none)

/-- Brace contribution of a single character. -/
def charDelta (c : Char) : Int :=
  if c = '{' then 1 else if c = '}' then -1 else 0


/-! ## Part IV: runtime data model

Messages and chat sessions follow src/runtime/invoker.go; requests, tool
specifications and tool responses follow src/unnamed/part_004 (first
revision).  Go `any` payloads (input value, output target, tool arguments
and results) are modelled by a type parameter `V`; Go `error` values by
`String` for collaborator errors and by the `GoError` type for the runtime's
own error values.  The `Output` pointer target of a request is modelled as
an `Option V` slot threaded through the run (`none` = the zero value, never
written). -/

/-- Message roles (src/runtime/invoker.go): system, agent, user. -/
inductive Role : Type
  | system : Role
  | agent : Role
  | user : Role
deriving DecidableEq

/-- A chat message: role and content. -/
structure Message : Type where
  role : Role
  content : String
deriving DecidableEq

/-- The Invoker collaborator: sends a system prompt and the ordered message
history to an LLM backend and returns the raw reply or an error. -/
def Invoker : Type :=
  String → List Message → Except String String

/-- Chat session state: system instructions and the ordered, append-only
message history.  The bound invoker is passed separately (a function cannot
be stored in a `DecidableEq` structure). -/
structure ChatSession : Type where
  system : String
  messages : List Message
deriving DecidableEq

/-- ChatSession.Add appends a message to the history. -/
def ChatSession.Add (chat : ChatSession) (msg : Message) : ChatSession :=
  { chat with messages := chat.messages ++ [msg] }

/-- ChatSession.Invoke (src/runtime/invoker.go lines 56-67): append a
user-role message, call the invoker with the system instructions and the
full history; on success append the reply as an agent-role message and
return it, on failure return the error with no agent message appended.
Returns the updated session together with the result. -/
def ChatSession.Invoke (invoker : Invoker) (chat : ChatSession) (msg : String) :
    ChatSession × Except String String :=
  let chat₁ := chat.Add ⟨Role.user, msg⟩
  match invoker chat₁.system chat₁.messages with
  | Except.error e => (chat₁, Except.error e)
  | Except.ok out => (chat₁.Add ⟨Role.agent, out⟩, Except.ok out)

/-- Tool specification (src/unnamed/part_004): name, description, and input
schema.  Schemas are opaque references interpreted by the validation
collaborator. -/
structure ToolSpec : Type where
  name : String
  description : String
  schema : String
deriving DecidableEq

/-- The backend's structured reply (src/unnamed/part_004): `done`/`out` for
a final answer, `name`/`args` for a tool call.  `out` and `args` are Go
`any` fields, so `none` models Go `nil`. -/
structure ToolResponse (V : Type) : Type where
  done : Bool
  out : Option V
  name : String
  args : Option V

/-- Outcome of `gojsonschema.Validate`: a hard error, an invalid document,
or a valid one. -/
inductive VOutcome : Type
  | err : String → VOutcome
  | invalid : VOutcome
  | valid : VOutcome
deriving DecidableEq

/-- The Go error values the runtime can return, one constructor per
`return err` site: `invalidOutput` is the `ErrInvalidOutput` sentinel,
`cancelled` is `ctx.Err()`, and the rest carry the wrapped collaborator
messages. -/
inductive GoError : Type
  | invalidOutput : GoError
  | schemaValidateErr : String → GoError
  | marshalErr : String → GoError
  | unmarshalErr : String → GoError
  | templateParse : String → GoError
  | templateExec : String → GoError
  | noValidJSON : GoError
  | invalidJSONFormat : String → GoError
  | missingName : GoError
  | missingArgs : String → GoError
  | toolUnmarshal : String → String → GoError
  | marshalFinalOutput : String → GoError
  | marshalToolArgs : String → GoError
  | invokeAfterTool : String → String → GoError
  | invokerErr : String → GoError
  | cancelled : GoError
deriving DecidableEq

/-- Observable external calls made during a run: a backend (invoker) call,
or a tool invocation. -/
inductive Event : Type
  | invokerCall : Event
  | toolCall : String → Event
deriving DecidableEq

/-- A request (src/unnamed/part_004).  The `Output` pointer is modelled as
run state rather than a request field; the tool unmarshaller and tool
invoker collaborators live here as in Go, with `toolInvoker = none`
modelling a nil `ToolInvoker`. -/
structure Request (V : Type) : Type where
  skipInput : Bool
  instructions : String
  promptTemplate : String
  input : Option V
  inputSchema : String
  outputSchema : String
  toolUnmarshaller : String → String → Except String V
  toolInvoker : Option (String → V → Except String V)
  toolSpecs : List ToolSpec

/-- The external collaborators of the runtime, as explicit functions:
the backend invoker, `json.Marshal` on `any` values (`marshal`),
`json.Unmarshal` into the typed output target (`unmarshalTo`),
`json.Unmarshal` into a `ToolResponse` struct (`unmarshalToolResponse`),
`gojsonschema.Validate` of a schema against a JSON document (`validate`),
the composite `LoadJSON`-then-`json.Marshal` rendering of a schema used by
the prompt builder (`schemaJSON`), and `html/template` parsing and
execution (`parseTmpl`, `execTmpl`). -/
structure Collab (V : Type) : Type where
  invoker : Invoker
  marshal : Option V → Except String String
  unmarshalTo : String → Except String V
  unmarshalToolResponse : String → Except String (ToolResponse V)
  validate : String → String → VOutcome
  schemaJSON : String → String
  parseTmpl : String → Except String Unit
  execTmpl : String → Option V → Except String String

/-- Result of a run: `result = none` models a run that does not terminate
within the given fuel; `output` is the request's output target slot
(`none` until populated); `sess` is the chat session (`none` when the run
failed before one was created); `events` is the ordered trace of external
calls. -/
structure RunOut (V : Type) : Type where
  result : Option (Except GoError Unit)
  output : Option V
  sess : Option ChatSession
  events : List Event

/-! ## Part V: prompt builder (src/runtime/prompt.go)

Each `write*` method of the Go `PromptBuilder` appends to an accumulated
`strings.Builder`; the methods are modelled as functions from the
accumulated string to the extended string.  Literal braces of the Go
source's prompt text are written `\x7b` and `\x7d`. -/

/-- writeInstructions: emits the `[SYSTEM INSTRUCTIONS]` section only when
the instructions are non-empty. -/
def PromptBuilder.writeInstructions (acc : String) (req : Request V) : String :=
  if req.instructions = "" then acc
  else acc ++ "[SYSTEM INSTRUCTIONS]\n\n" ++ req.instructions ++ "\n\n"

/-- The constant `[WORKFLOW]` section body. -/
def PromptBuilder.workflowText : String :=
  "\n[WORKFLOW]\n\n1. You will be given the conversation so far, including:\n   - The original user request.\n   - Your previous reasoning and tool calls.\n   - Tool outputs or error messages.\n\n2. After receiving a tool output or error, you must:\n   - Analyze if the goal is achieved.\n   - If more steps are required, call another tool with correct parameters.\n   - If the goal is complete, provide a clear, final answer to the user.\n"

/-- writeWorkflow: appends the static workflow boilerplate. -/
def PromptBuilder.writeWorkflow (acc : String) : String :=
  acc ++ PromptBuilder.workflowText

/-- writeInput: appends the `[INPUT]` section with the JSON-serialised input
value; a marshalling error is ignored in Go (`rawInput, _ := ...`), leaving
the serialised part empty. -/
def PromptBuilder.writeInput (marshal : Option V → Except String String) (acc : String)
    (input : Option V) : String :=
  acc ++ "\n[INPUT]:\n\n" ++
    (match marshal input with
      | Except.ok s => s
      | Except.error _ => "") ++ "\n"

/-- One tool block of the `[TOOLS]` section (the Go
`fmt.Fprintf(&pb.Builder, "Tool: %s\nDescription: %s\nInputSchema: %s\n\n", ...)`). -/
def PromptBuilder.toolBlock (schemaJSON : String → String) (t : ToolSpec) : String :=
  "Tool: " ++ t.name ++ "\nDescription: " ++ t.description ++ "\nInputSchema: " ++
    schemaJSON t.schema ++ "\n\n"

/-- writeTools: appends the `[TOOLS]` header and one block per tool, only
when at least one tool is configured. -/
def PromptBuilder.writeTools (schemaJSON : String → String) (acc : String)
    (tools : List ToolSpec) : String :=
  if 0 < tools.length then
    acc ++ "\n[TOOLS]\n\n" ++ String.join (tools.map (PromptBuilder.toolBlock schemaJSON))
  else acc

/-- The `[OUTPUT FORMAT]` section when no tools are configured. -/
def PromptBuilder.outputFormatNoTools (schema : String) : String :=
  "\n[OUTPUT FORMAT]\n\nReturn ONLY a valid JSON object matching the following schema:\n\n" ++
    schema

/-- The dual-mode `[OUTPUT FORMAT]` section when tools are configured. -/
def PromptBuilder.outputFormatTools (schema : String) : String :=
  "\n[OUTPUT FORMAT]\n\nAfter each tool output or error, you must return exactly one JSON object, following these rules:\n\n1. If more steps are required (tool call):\n\n\x7b\n\t\"name\": \"<tool name>\",\n\t\"args\": \x7b...\x7d\n\x7d\n\n- \"name\": The exact name of the tool to call (must be one of the tools listed in the TOOLS section).\n- \"args\": A JSON object that matches the input schema for the selected tool exactly.\n- Do not include extra fields or omit required fields.\n\n2. If goal is achieved (final output):\n\n\x7b\n\t\"done\": true,\n\t\"out\": \x7b...\x7d\n\x7d\n\nwhere \"out\" is a JSON object strictly matching the following JSON schema:\n\n" ++
    schema

/-- writeOutputFormat: always emits the `[OUTPUT FORMAT]` section, choosing
the single-mode or dual-mode text by whether tools are configured. -/
def PromptBuilder.writeOutputFormat (schemaJSON : String → String) (acc : String)
    (outSchema : String) (hasTools : Bool) : String :=
  if hasTools then acc ++ PromptBuilder.outputFormatTools (schemaJSON outSchema)
  else acc ++ PromptBuilder.outputFormatNoTools (schemaJSON outSchema)

/-- The constant `[GUIDELINES]` section body. -/
def PromptBuilder.guidelinesText : String :=
  "\n\n[GUIDELINES]:\n\n- Do not include any extra text.\n- Do not include markdown or code fences.\n- Ensure the JSON is syntactically valid.\n- All fields must be present, even if empty.\n\n"

/-- writeGuidelines: appends the static guidelines. -/
def PromptBuilder.writeGuidelines (acc : String) : String :=
  acc ++ PromptBuilder.guidelinesText

/-- writeUserPrompt: appends the `[USER PROMPT]` section; always last. -/
def PromptBuilder.writeUserPrompt (acc : String) (prompt : String) : String :=
  acc ++ "[USER PROMPT]\n\n" ++ prompt ++ "\n"

/-- PromptBuilder.Build (src/runtime/prompt.go lines 29-47): renders the
prompt by running the write methods in the fixed Go order over an initially
empty builder. -/
def PromptBuilder.Build (marshal : Option V → Except String String)
    (schemaJSON : String → String) (userPrompt : String) (req : Request V) : String :=
  let pb := ""
  let pb := PromptBuilder.writeInstructions pb req
  let pb := if 0 < req.toolSpecs.length then PromptBuilder.writeWorkflow pb else pb
  let pb := PromptBuilder.writeTools schemaJSON pb req.toolSpecs
  let pb := if !req.skipInput then PromptBuilder.writeInput marshal pb req.input else pb
  let pb := PromptBuilder.writeOutputFormat schemaJSON pb req.outputSchema
    (0 < req.toolSpecs.length)
  let pb := PromptBuilder.writeGuidelines pb
  PromptBuilder.writeUserPrompt pb userPrompt

/-! ## Part VI: schema validation utilities (src/runtime/utils.go) and the
runtime (src/unnamed/part_004, first revision) -/

/-- ValidateRawJSON (src/runtime/utils.go lines 34-44): `gojsonschema.Validate`
errors are propagated; an invalid document yields `ErrInvalidOutput`. -/
def ValidateRawJSON (C : Collab V) (data : String) (schema : String) : Except GoError Unit :=
  match C.validate schema data with
  | VOutcome.err e => Except.error (GoError.schemaValidateErr e)
  | VOutcome.invalid => Except.error GoError.invalidOutput
  | VOutcome.valid => Except.ok ()

/-- UnmarshalValidate (src/runtime/utils.go lines 26-31): validate the JSON
against the schema first, then unmarshal it into the output target `slot`.
The slot is only written after validation succeeds. -/
def UnmarshalValidate (C : Collab V) (data : String) (schema : String) (slot : Option V) :
    Except GoError Unit × Option V :=
  match ValidateRawJSON C data schema with
  | Except.error e => (Except.error e, slot)
  | Except.ok _ =>
    match C.unmarshalTo data with
    | Except.error e => (Except.error (GoError.unmarshalErr e), slot)
    | Except.ok v => (Except.ok (), some v)

/-- Superseded revision of UnmarshalValidate (src/unnamed/part_006 lines
10-25): it unmarshals into the target first and validates afterwards, so a
failed validation can leave the target populated. -/
def UnmarshalValidateLegacy (C : Collab V) (data : String) (schema : String) (slot : Option V) :
    Except GoError Unit × Option V :=
  match C.unmarshalTo data with
  | Except.error e => (Except.error (GoError.unmarshalErr e), slot)
  | Except.ok v =>
    match C.validate schema data with
    | VOutcome.err e => (Except.error (GoError.schemaValidateErr e), some v)
    | VOutcome.invalid => (Except.error GoError.invalidOutput, some v)
    | VOutcome.valid => (Except.ok (), some v)

/-- ValidateJSON (src/runtime/utils.go lines 47-53): marshal the value, then
validate the raw JSON against the schema. -/
def ValidateJSON (C : Collab V) (x : Option V) (schema : String) : Except GoError Unit :=
  match C.marshal x with
  | Except.error e => Except.error (GoError.marshalErr e)
  | Except.ok data => ValidateRawJSON C data schema

/-- parseToolResponse (src/unnamed/part_004 lines 150-161): extract the
first JSON object from the reply; an empty extraction is the "no valid JSON
found in response" error, a failed struct decode the "invalid JSON format"
error. -/
def parseToolResponse (C : Collab V) (raw : String) : Except GoError (ToolResponse V) :=
  let rawJSON := ExtractJSONFromString raw
  if rawJSON = "" then Except.error GoError.noValidJSON
  else
    match C.unmarshalToolResponse rawJSON with
    | Except.error _ => Except.error (GoError.invalidJSONFormat rawJSON)
    | Except.ok resp => Except.ok resp

/-- unmarshalOutput (src/unnamed/part_004 lines 173-179): extract the first
JSON object; empty means `ErrInvalidOutput`, otherwise validate-then-decode
into the output slot (which starts at the Go zero value, `none`). -/
def unmarshalOutput (C : Collab V) (req : Request V) (out : String) :
    Except GoError Unit × Option V :=
  let extracted := ExtractJSONFromString out
  if extracted = "" then (Except.error GoError.invalidOutput, none)
  else UnmarshalValidate C extracted req.outputSchema none

/-- callTool (src/unnamed/part_004 lines 163-171): a tool invoker error is
rendered as `"ERR: " ++ message`; a success as
`name ++ " OUTPUT: " ++ serialised result` (a marshalling error is ignored
in Go, leaving the serialised part empty). -/
def Runtime.callTool (C : Collab V) (tinv : String → V → Except String V)
    (name : String) (inV : V) : String :=
  match tinv name inV with
  | Except.error e => "ERR: " ++ e
  | Except.ok toolResp =>
    name ++ " OUTPUT: " ++
      (match C.marshal (some toolResp) with
        | Except.ok raw => raw
        | Except.error _ => "")

/-- agentLoop (src/unnamed/part_004 lines 101-148).  `cancelAt n` models
whether `ctx.Done()` is closed at the n-th poll (the `select` at the top of
each iteration); `fuel` bounds the unbounded Go loop, with exhaustion
reported as `result = none`; `evs` accumulates the already-made external
calls.  Each iteration: poll cancellation; parse the reply; on `done`,
marshal `out` and validate-then-decode it; otherwise check `name`/`args`,
decode the arguments, invoke the tool (never fatal), feed the rendered tool
output back through the session, and continue with the new reply. -/
def Runtime.agentLoop (C : Collab V) (cancelAt : Nat → Bool) (req : Request V)
    (tinv : String → V → Except String V) :
    Nat → Nat → String → ChatSession → List Event → RunOut V
  | 0, _, _, sess, evs => ⟨none, none, some sess, evs⟩
  | fuel + 1, n, out, sess, evs =>
    if cancelAt n then ⟨some (Except.error GoError.cancelled), none, some sess, evs⟩
    else
      match parseToolResponse C out with
      | Except.error e => ⟨some (Except.error e), none, some sess, evs⟩
      | Except.ok resp =>
        if resp.done then
          match C.marshal resp.out with
          | Except.error e =>
            ⟨some (Except.error (GoError.marshalFinalOutput e)), none, some sess, evs⟩
          | Except.ok rawOut =>
            let r := unmarshalOutput C req rawOut
            ⟨some r.1, r.2, some sess, evs⟩
        else if resp.name = "" then
          ⟨some (Except.error GoError.missingName), none, some sess, evs⟩
        else
          match resp.args with
          | none => ⟨some (Except.error (GoError.missingArgs resp.name)), none, some sess, evs⟩
          | some a =>
            match C.marshal (some a) with
            | Except.error e =>
              ⟨some (Except.error (GoError.marshalToolArgs e)), none, some sess, evs⟩
            | Except.ok rawArgs =>
              match req.toolUnmarshaller resp.name rawArgs with
              | Except.error e =>
                ⟨some (Except.error (GoError.toolUnmarshal resp.name e)), none, some sess, evs⟩
              | Except.ok inV =>
                let toolOutput := Runtime.callTool C tinv resp.name inV
                match ChatSession.Invoke C.invoker sess toolOutput with
                | (sess₁, Except.error e) =>
                  ⟨some (Except.error (GoError.invokeAfterTool resp.name e)), none, some sess₁,
                    evs ++ [Event.toolCall resp.name, Event.invokerCall]⟩
                | (sess₁, Except.ok out₁) =>
                  Runtime.agentLoop C cancelAt req tinv fuel (n + 1) out₁ sess₁
                    (evs ++ [Event.toolCall resp.name, Event.invokerCall])

/-- compilePrompt (src/unnamed/part_004 lines 193-213): parse the Go
template, then execute it against the input value; each failure is wrapped
with its own message. -/
def Runtime.compilePrompt (C : Collab V) (req : Request V) : Except GoError String :=
  match C.parseTmpl req.promptTemplate with
  | Except.error e => Except.error (GoError.templateParse e)
  | Except.ok _ =>
    match C.execTmpl req.promptTemplate req.input with
    | Except.error e => Except.error (GoError.templateExec e)
    | Except.ok s => Except.ok s

/-- preparePrompt (src/unnamed/part_004 lines 181-191): compile the user
prompt from the template, then render the full prompt with the builder. -/
def Runtime.preparePrompt (C : Collab V) (req : Request V) : Except GoError String :=
  match Runtime.compilePrompt C req with
  | Except.error e => Except.error e
  | Except.ok compiled => Except.ok (PromptBuilder.Build C.marshal C.schemaJSON compiled req)

/-- Modelled from the spec: part_004 constructs its session with
`NewChatSession(r.invoker, req.Instructions)`, a two-argument constructor
whose body is not under src (the one-argument revision in
src/runtime/invoker.go leaves the system prompt empty); per spec section 3
the session owns the system instructions, fixed for its lifetime, with an
initially empty history.  The invoker binding lives in `Collab`. -/
def NewChatSession (instructions : String) : ChatSession :=
  ⟨instructions, []⟩

/-- Runtime.Invoke (src/unnamed/part_004 lines 75-99): validate the input
against the input schema, prepare the prompt, create the session, make the
first backend call, then either decode the final answer directly (no tool
invoker configured) or enter the agent loop. -/
def Runtime.Invoke (C : Collab V) (cancelAt : Nat → Bool) (fuel : Nat) (req : Request V) :
    RunOut V :=
  match ValidateJSON C req.input req.inputSchema with
  | Except.error e => ⟨some (Except.error e), none, none, []⟩
  | Except.ok _ =>
    match Runtime.preparePrompt C req with
    | Except.error e => ⟨some (Except.error e), none, none, []⟩
    | Except.ok prompt =>
      let sess := NewChatSession req.instructions
      match ChatSession.Invoke C.invoker sess prompt with
      | (sess₁, Except.error e) =>
        ⟨some (Except.error (GoError.invokerErr e)), none, some sess₁, [Event.invokerCall]⟩
      | (sess₁, Except.ok out) =>
        match req.toolInvoker with
        | none =>
          let r := unmarshalOutput C req out
          ⟨some r.1, r.2, some sess₁, [Event.invokerCall]⟩
        | some tinv => Runtime.agentLoop C cancelAt req tinv fuel 0 out sess₁ [Event.invokerCall]

/-! ## Part VII: concrete collaborators for witness scenarios (V = String,
where a value is its own JSON serialisation) -/

/-- A scripted invoker in the style of the repository's test `mockInvoker`:
reply k is served to the k-th call (the history holds `2k + 1` messages at
call k), and an exhausted script yields an "unexpected call" error. -/
def scriptInvoker (script : List String) : Invoker :=
  fun _ msgs =>
    match script.get? ((msgs.length - 1) / 2) with
    | some r => Except.ok r
    | none => Except.error ("unexpected call")

/-- Table-driven decoder of `ToolResponse` structs from raw JSON strings. -/
def tableToolResponse (table : List (String × ToolResponse String)) :
    String → Except String (ToolResponse String) :=
  fun s =>
    match table.find? (fun p => p.1 == s) with
    | some p => Except.ok p.2
    | none => Except.error ("bad tool response")

/-- Concrete collaborators over `V = String`: marshalling is the identity
(with `none` marshalled as `null` like Go's `json.Marshal(nil)`), schema
rendering is the identity, templates always parse and execute to the
template text itself, and validation declares every document valid except
against the distinguished schema `"REJECT"`. -/
def demoCollab (script : List String) (table : List (String × ToolResponse String)) :
    Collab String where
  invoker := scriptInvoker script
  marshal := fun x => Except.ok (x.getD ("null"))
  unmarshalTo := fun s => Except.ok s
  unmarshalToolResponse := tableToolResponse table
  validate := fun schema _ => if schema = "REJECT" then VOutcome.invalid else VOutcome.valid
  schemaJSON := fun s => s
  parseTmpl := fun _ => Except.ok ()
  execTmpl := fun t _ => Except.ok t

/-- A request with no tools configured whose output schema rejects every
document. -/
def reqNoTools : Request String where
  skipInput := false
  instructions := ""
  promptTemplate := "Hello"
  input := some ("\x7b\x7d")
  inputSchema := "IN"
  outputSchema := "REJECT"
  toolUnmarshaller := fun _ s => Except.ok s
  toolInvoker := none
  toolSpecs := []

/-- Collaborators for the no-tools invalid-output scenario: the backend
replies with a JSON object that the output schema then rejects. -/
def collabC2 : Collab String :=
  demoCollab [("\x7b\"x\":1\x7d")] []

/-- The reply the backend gives in the cancellation scenario: a non-final
(`done:false`) tool call. -/
def replyToolCall : String :=
  "\x7b\"name\":\"t\",\"args\":\x7b\x7d,\"done\":false\x7d"

/-- Tool invoker that succeeds with a fixed result. -/
def tinvOk : String → String → Except String String :=
  fun _ _ => Except.ok ("\x7b\"r\":1\x7d")

/-- Tool invoker that always fails. -/
def tinvErr : String → String → Except String String :=
  fun _ _ => Except.error ("boom")

/-- Collaborators for the cancellation scenario: one non-final reply. -/
def collabC5 : Collab String :=
  demoCollab [replyToolCall]
    [(replyToolCall, ⟨false, none, "t", some ("\x7b\x7d")⟩)]

/-- A request with a tool configured (used by the cancellation scenario). -/
def reqC5 : Request String where
  skipInput := false
  instructions := ""
  promptTemplate := "Hello"
  input := some ("\x7b\x7d")
  inputSchema := "IN"
  outputSchema := "OUT"
  toolUnmarshaller := fun _ s => Except.ok s
  toolInvoker := some tinvOk
  toolSpecs := [⟨"t", "a tool", "TS"⟩]

/-- Collaborators for the tool-error scenario: the (loop-entry) reply is a
tool call; the follow-up reply after the fed-back tool output is a final
answer. -/
def collabC4 : Collab String :=
  demoCollab [("\x7b\"done\":true,\"out\":\x7b\"x\":1\x7d\x7d")]
    [(replyToolCall, ⟨false, none, "t", some ("\x7b\x7d")⟩)]

/-- Request for the tool-error scenario, bound to the failing tool invoker. -/
def reqC4 : Request String :=
  { reqC5 with toolInvoker := some tinvErr }

/-- Collaborators whose template fails to parse (configuration-error
scenario). -/
def collabC7 : Collab String :=
  { demoCollab [] [] with parseTmpl := fun _ => Except.error ("template broken") }

/-- Invoker answering "pong" to a first call and failing afterwards. -/
def invokerC6 : Invoker :=
  fun _ msgs => if msgs.length = 1 then Except.ok ("pong") else Except.error ("down")

/-- The final (`done:true`) reply served in the tool-error scenario. -/
def replyDone : String :=
  "\x7b\"done\":true,\"out\":\x7b\"x\":1\x7d\x7d"

/-- A request with non-empty instructions and one tool, for the prompt
witness. -/
def reqC3 : Request String :=
  { reqC5 with instructions := "Follow the rules." }

/-! ## Part III: properties of the extraction algorithm -/

theorem braceDelta_nil : braceDelta [] = 0 := by
  simp [braceDelta]

theorem braceDelta_cons (c : Char) (l : List Char) :
    braceDelta (c :: l) = charDelta c + braceDelta l := by
  by_cases h1 : c = '{'
  · subst h1
    simp [braceDelta, charDelta, List.count_cons]
    try ring
  · by_cases h2 : c = '}'
    · subst h2
      simp [braceDelta, charDelta, List.count_cons]
      try ring
    · simp [braceDelta, charDelta, List.count_cons, h1, h2, Ne.symm h1, Ne.symm h2]
      try ring

theorem scanCandidates_nil (seen : List Char) (d : Int) : scanCandidates [] seen d = [] := by
  simp [scanCandidates]

theorem scanCandidates_cons (c : Char) (cs seen : List Char) (d : Int) :
    scanCandidates (c :: cs) seen d =
      (if c = '}' ∧ d - 1 = 0 then [seen ++ [c]] else []) ++
        scanCandidates cs (seen ++ [c]) (d + charDelta c) := by
  unfold scanCandidates
  rw [List.length_cons, List.range_succ_eq_map, List.filterMap_cons, List.filterMap_map]
  have hshift : List.filterMap
      ((fun i => if (c :: cs).get? i = some '}' ∧ d + braceDelta ((c :: cs).take (i + 1)) = 0
          then some (seen ++ (c :: cs).take (i + 1)) else none) ∘ Nat.succ) (List.range cs.length) =
      List.filterMap
        (fun i => if cs.get? i = some '}' ∧ (d + charDelta c) + braceDelta (cs.take (i + 1)) = 0
          then some ((seen ++ [c]) ++ cs.take (i + 1)) else none) (List.range cs.length) := by
    apply List.filterMap_congr
    intro i _
    have harith : (d + braceDelta ((c :: cs).take (Nat.succ i + 1)) = 0) ↔
        ((d + charDelta c) + braceDelta (cs.take (i + 1)) = 0) := by
      rw [show Nat.succ i + 1 = (i + 1) + 1 from rfl, List.take_succ_cons, braceDelta_cons]
      constructor <;> intro h <;> linarith
    have hval : seen ++ (c :: cs).take (Nat.succ i + 1) = (seen ++ [c]) ++ cs.take (i + 1) := by
      rw [show Nat.succ i + 1 = (i + 1) + 1 from rfl, List.take_succ_cons, List.append_cons]
    simp only [Function.comp_apply, List.get?_cons_succ]
    rw [if_congr (and_congr Iff.rfl harith) (by rw [hval]) rfl]
  rw [hshift]
  by_cases hc : c = '}' ∧ d - 1 = 0
  · have hcond : (c :: cs).get? 0 = some '}' ∧ d + braceDelta ((c :: cs).take (0 + 1)) = 0 := by
      constructor
      · simp [hc.1]
      · have : braceDelta ((c :: cs).take 1) = charDelta c := by
          rw [show (c :: cs).take 1 = [c] by simp, show ([c] : List Char) = c :: [] from rfl,
            braceDelta_cons, braceDelta_nil, add_zero]
        rw [this, hc.1]
        simp [charDelta]
        linarith [hc.2]
    rw [if_pos hc, if_pos hcond]
    simp
  · have hcond : ¬((c :: cs).get? 0 = some '}' ∧ d + braceDelta ((c :: cs).take (0 + 1)) = 0) := by
      intro h
      apply hc
      have hcj : c = '}' := by simpa using h.1
      refine ⟨hcj, ?_⟩
      have : braceDelta ((c :: cs).take 1) = charDelta c := by
        rw [show (c :: cs).take 1 = [c] by simp, show ([c] : List Char) = c :: [] from rfl,
          braceDelta_cons, braceDelta_nil, add_zero]
      rw [this, hcj] at h
      simp [charDelta] at h
      linarith [h]
    rw [if_neg hc, if_neg hcond]
    simp

theorem headD_filter_cons_pos {α : Type _} (p : α → Bool) (x : α) (S : List α) (d : α)
    (hx : p x = true) : ((x :: S).filter p).headD d = x := by
  simp [List.filter_cons, hx]

theorem headD_filter_cons_neg {α : Type _} (p : α → Bool) (x : α) (S : List α) (d : α)
    (hx : p x = false) : ((x :: S).filter p).headD d = (S.filter p).headD d := by
  simp [List.filter_cons, hx]

theorem scanJSON_eq (ok : List Char → Bool) :
    ∀ (cs seen : List Char) (d : Int),
      scanJSON ok cs seen d = ((scanCandidates cs seen d).filter ok).headD [] := by
  intro cs
  induction cs with
  | nil =>
    intro seen d
    simp [scanJSON, scanCandidates_nil]
  | cons c cs ih =>
    intro seen d
    rw [scanCandidates_cons]
    by_cases h1 : c = '{'
    · have hne : ¬(c = '}' ∧ d - 1 = 0) := by
        rintro ⟨hh, -⟩
        rw [h1] at hh
        exact absurd hh (by decide)
      have e1 : scanJSON ok (c :: cs) seen d = scanJSON ok cs (seen ++ [c]) (d + 1) := by
        simp only [scanJSON]
        rw [if_pos h1]
      rw [e1, if_neg hne, List.nil_append, ih, h1]
      norm_num [charDelta]
    · by_cases h2 : c = '}'
      · have hne1 : ¬(c = '{') := by rw [h2]; decide
        have hd : d + charDelta c = d - 1 := by
          rw [h2]
          simp [charDelta]
          rw [sub_eq_add_neg]
        by_cases h3 : d - 1 = 0
        · have hcond : c = '}' ∧ d - 1 = 0 := ⟨h2, h3⟩
          by_cases h4 : ok (seen ++ [c]) = true
          · have e2 : scanJSON ok (c :: cs) seen d = seen ++ [c] := by
              simp only [scanJSON]
              rw [if_neg hne1, if_pos (show d - 1 = 0 ∧ ok (seen ++ [c]) = true from ⟨h3, h4⟩),
                if_pos h2]
            rw [e2, if_pos hcond, List.singleton_append]
            exact (headD_filter_cons_pos ok (seen ++ [c]) _ [] h4).symm
          · have hf : ok (seen ++ [c]) = false := by
              cases hok : ok (seen ++ [c])
              · rfl
              · exact absurd hok h4
            have e3 : scanJSON ok (c :: cs) seen d = scanJSON ok cs (seen ++ [c]) (d - 1) := by
              simp only [scanJSON]
              rw [if_neg hne1,
                if_neg (show ¬(d - 1 = 0 ∧ ok (seen ++ [c]) = true) from fun h => h4 h.2),
                if_pos h2]
            rw [e3, if_pos hcond, List.singleton_append,
              headD_filter_cons_neg ok (seen ++ [c]) _ [] hf, hd, ih]
        · have hne2 : ¬(c = '}' ∧ d - 1 = 0) := fun h => h3 h.2
          have e4 : scanJSON ok (c :: cs) seen d = scanJSON ok cs (seen ++ [c]) (d - 1) := by
            simp only [scanJSON]
            rw [if_neg hne1,
              if_neg (show ¬(d - 1 = 0 ∧ ok (seen ++ [c]) = true) from fun h => h3 h.1),
              if_pos h2]
          rw [e4, if_neg hne2, List.nil_append, hd, ih]
      · have hne3 : ¬(c = '}' ∧ d - 1 = 0) := fun h => h2 h.1
        have e5 : scanJSON ok (c :: cs) seen d = scanJSON ok cs (seen ++ [c]) d := by
          simp only [scanJSON]
          rw [if_neg h1, if_neg h2]
        have hd : d + charDelta c = d := by simp [charDelta, h1, h2]
        rw [e5, if_neg hne3, List.nil_append, hd, ih]

theorem jsonCandidates_eq (l : List Char) : jsonCandidates l = scanCandidates l [] 0 := by
  unfold jsonCandidates scanCandidates
  apply List.filterMap_congr
  intro i _
  simp

theorem extractJSONCore_eq_spec (ok : List Char → Bool) (input : List Char) :
    extractJSONCore ok input = extractJSONSpec ok input := by
  unfold extractJSONCore extractJSONSpec
  by_cases he : (input.dropWhile (fun c => c ≠ '{')).isEmpty
  · rw [if_pos he]
    have hnil : input.dropWhile (fun c => c ≠ '{') = [] := by
      cases hh : input.dropWhile (fun c => c ≠ '{') with
      | nil => rfl
      | cons a l =>
        rw [hh] at he
        exact absurd he (by simp)
    rw [hnil]
    simp [jsonCandidates]
  · rw [if_neg he, scanJSON_eq, jsonCandidates_eq]

theorem mem_jsonCandidates {l x : List Char} (h : x ∈ jsonCandidates l) :
    ∃ i, i < l.length ∧ l.get? i = some '}' ∧ braceDelta (l.take (i + 1)) = 0 ∧
      x = l.take (i + 1) := by
  unfold jsonCandidates at h
  rcases List.mem_filterMap.mp h with ⟨i, hi, hf⟩
  rw [List.mem_range] at hi
  by_cases hc : l.get? i = some '}' ∧ braceDelta (l.take (i + 1)) = 0
  · rw [if_pos hc, Option.some_inj] at hf
    exact ⟨i, hi, hc.1, hc.2, hf.symm⟩
  · rw [if_neg hc] at hf
    cases hf

theorem length_of_mem_jsonCandidates {l x : List Char} (h : x ∈ jsonCandidates l) :
    x.length ≤ l.length := by
  rcases mem_jsonCandidates h with ⟨i, hi, -, -, hx⟩
  rw [hx, List.length_take]
  omega

theorem jsonCandidates_take_split (l : List Char) (n : Nat) (hn : n ≤ l.length) :
    ∃ D, jsonCandidates l = jsonCandidates (l.take n) ++ D ∧ ∀ x ∈ D, n < x.length := by
  refine ⟨(List.range (l.length - n)).filterMap
    (fun j => if l.get? (n + j) = some '}' ∧ braceDelta (l.take (n + j + 1)) = 0 then
      some (l.take (n + j + 1)) else none), ?_, ?_⟩
  · conv_lhs => rw [jsonCandidates, show l.length = n + (l.length - n) by omega,
      List.range_add, List.filterMap_append, List.filterMap_map]
    congr 1
    · rw [jsonCandidates, List.length_take, show min n l.length = n by omega]
      apply List.filterMap_congr
      intro i hi
      rw [List.mem_range] at hi
      have h1 : (l.take n).get? i = l.get? i := List.get?_take hi
      have h2 : (l.take n).take (i + 1) = l.take (i + 1) := by
        rw [List.take_take, show min (i + 1) n = i + 1 by omega]
      rw [h1, h2]
  · intro x hx
    rcases List.mem_filterMap.mp hx with ⟨j, hj, hf⟩
    by_cases hc : l.get? (n + j) = some '}' ∧ braceDelta (l.take (n + j + 1)) = 0
    · rw [if_pos hc, Option.some_inj] at hf
      have hlt : n + j < l.length := by
        by_contra hge
        rw [List.get?_eq_none.mpr (by omega)] at hc
        cases hc.1
      rw [← hf, List.length_take]
      omega
    · rw [if_neg hc] at hf
      cases hf

theorem dropWhile_head_false {α : Type _} (p : α → Bool) :
    ∀ (l : List α) (c : α) (cs : List α), l.dropWhile p = c :: cs → p c = false := by
  intro l
  induction l with
  | nil =>
    intro c cs h
    cases h
  | cons a l ih =>
    intro c cs h
    rw [List.dropWhile_cons] at h
    by_cases hp : p a
    · rw [if_pos hp] at h
      exact ih c cs h
    · rw [if_neg hp] at h
      cases h
      cases hpa : p a
      · rfl
      · exact absurd hpa hp

theorem extractJSONCore_idem (ok : List Char → Bool) (input : List Char) :
    extractJSONCore ok (extractJSONCore ok input) = extractJSONCore ok input := by
  by_cases hr : extractJSONCore ok input = []
  · rw [hr]
    rfl
  · set tail := input.dropWhile (fun c => c ≠ '{') with htail
    have hspec : extractJSONCore ok input = ((jsonCandidates tail).filter ok).headD [] := by
      rw [extractJSONCore_eq_spec]
      rfl
    set r := extractJSONCore ok input with hrdef
    -- the filtered candidate list is non-empty and r is its head
    obtain ⟨y, ys, hF⟩ : ∃ y ys, (jsonCandidates tail).filter ok = y :: ys := by
      cases hF : (jsonCandidates tail).filter ok with
      | nil =>
        exfalso
        apply hr
        rw [hspec, hF]
        rfl
      | cons y ys => exact ⟨y, ys, rfl⟩
    have hry : r = y := by
      rw [hspec, hF]
      rfl
    have hrmem : r ∈ (jsonCandidates tail).filter ok := by
      rw [hF, hry]
      exact List.mem_cons_self y ys
    have hrok : ok r = true := List.of_mem_filter hrmem
    have hrC : r ∈ jsonCandidates tail := List.mem_of_mem_filter hrmem
    rcases mem_jsonCandidates hrC with ⟨i, hi, hget, hdelta, hrtake⟩
    have hrlen : r.length = i + 1 := by
      rw [hrtake, List.length_take]
      omega
    -- the head of tail is the first brace
    obtain ⟨t, htcons⟩ : ∃ t, tail = '{' :: t := by
      cases htt : tail with
      | nil =>
        exfalso
        apply hr
        rw [hrdef, extractJSONCore, if_pos (by rw [← htail, htt]; rfl)]
      | cons a t =>
        have := dropWhile_head_false (fun c => decide (c ≠ '{')) input a t (by rw [← htail]; exact htt)
        have ha : a = '{' := by simpa using this
        exact ⟨t, by rw [ha]⟩
    have hrhead : r = '{' :: t.take i := by
      rw [hrtake, htcons, List.take_succ_cons]
    -- split the candidates of tail at the end of r
    obtain ⟨D, hsplit, hD⟩ := jsonCandidates_take_split tail (i + 1) (by omega)
    have htaker : tail.take (i + 1) = r := hrtake.symm
    rw [htaker] at hsplit
    -- compute the extraction from r
    have hdrop : r.dropWhile (fun c => c ≠ '{') = r := by
      rw [hrhead, List.dropWhile_cons]
      simp
    have hspec2 : extractJSONCore ok r = ((jsonCandidates r).filter ok).headD [] := by
      rw [extractJSONCore_eq_spec, extractJSONSpec, hdrop]
    obtain ⟨z, zs, hFr⟩ : ∃ z zs, (jsonCandidates r).filter ok = z :: zs := by
      cases hFr : (jsonCandidates r).filter ok with
      | nil =>
        exfalso
        rw [hsplit, List.filter_append, hFr, List.nil_append] at hF
        have : y ∈ D.filter ok := by
          rw [hF]
          exact List.mem_cons_self y ys
        have hyD : y ∈ D := List.mem_of_mem_filter this
        have := hD y hyD
        rw [← hry, hrlen] at this
        omega
      | cons z zs => exact ⟨z, zs, rfl⟩
    have hzy : z = y := by
      rw [hsplit, List.filter_append, hFr] at hF
      exact (List.cons.injEq _ _ _ _ ▸ hF).1
    rw [hspec2, hFr]
    show z = r
    rw [hzy, ← hry]

theorem extractJSONCore_structure (ok : List Char → Bool) (input : List Char)
    (h : extractJSONCore ok input ≠ []) :
    (∃ suffix, input = input.takeWhile (fun c => c ≠ '{') ++ extractJSONCore ok input ++ suffix) ∧
      (∀ c ∈ input.takeWhile (fun c => c ≠ '{'), c ≠ '{') ∧
      (extractJSONCore ok input).head? = some '{' := by
  set tail := input.dropWhile (fun c => c ≠ '{') with htail
  have hspec : extractJSONCore ok input = ((jsonCandidates tail).filter ok).headD [] := by
    rw [extractJSONCore_eq_spec]
    rfl
  set r := extractJSONCore ok input with hrdef
  obtain ⟨y, ys, hF⟩ : ∃ y ys, (jsonCandidates tail).filter ok = y :: ys := by
    cases hF : (jsonCandidates tail).filter ok with
    | nil =>
      exfalso
      apply h
      rw [hspec, hF]
      rfl
    | cons y ys => exact ⟨y, ys, rfl⟩
  have hrmem : r ∈ (jsonCandidates tail).filter ok := by
    rw [hF, show r = y by rw [hspec, hF]; rfl]
    exact List.mem_cons_self y ys
  have hrC : r ∈ jsonCandidates tail := List.mem_of_mem_filter hrmem
  rcases mem_jsonCandidates hrC with ⟨i, hi, hget, hdelta, hrtake⟩
  obtain ⟨t, htcons⟩ : ∃ t, tail = '{' :: t := by
    cases htt : tail with
    | nil =>
      exfalso
      rw [htt] at hi
      simp at hi
    | cons a t =>
      have := dropWhile_head_false (fun c => decide (c ≠ '{')) input a t (by rw [← htail]; exact htt)
      have ha : a = '{' := by simpa using this
      exact ⟨t, by rw [ha]⟩
  refine ⟨⟨tail.drop (i + 1), ?_⟩, ?_, ?_⟩
  · rw [hrtake, List.append_assoc, List.take_append_drop]
    exact (List.takeWhile_append_dropWhile (fun c => decide (c ≠ '{')) input).symm
  · intro c hc
    have := List.mem_takeWhile_imp hc
    simpa using this
  · rw [hrtake, htcons, List.take_succ_cons]
    rfl

/-- C1: for every input string, `ExtractJSONFromString` behaves as specified:
it scans from the first `'{'`, keeps a brace-depth counter, tries each
substring from the opening brace to a position where the depth returns to
zero, returns the first such candidate that parses as JSON, and returns the
empty string when no brace-balanced, independently parseable candidate
exists (the equality with `extractJSONSpec`); in particular, for a text
containing two candidate JSON objects the first brace-balanced,
independently parseable one is returned, and when an earlier depth-zero
candidate fails to parse the scan continues to a later one. -/
theorem claim_C1_extraction_follows_spec :
    (∀ s : String, ExtractJSONFromString s = String.mk (extractJSONSpec jsonOk s.data)) ∧
    ExtractJSONFromString ("pre \x7b\"a\":1\x7d mid \x7b\"b\":2\x7d post") = ("\x7b\"a\":1\x7d") ∧
    ExtractJSONFromString ("\x7b\"a\":\"\x7d\x7b\"\x7d tail") = ("\x7b\"a\":\"\x7d\x7b\"\x7d") := by
  refine ⟨fun s => ?_, by decide, by decide⟩
  unfold ExtractJSONFromString
  rw [extractJSONCore_eq_spec]

/-- C8: JSON extraction is idempotent: extracting from an extraction result
returns that result unchanged. -/
theorem claim_C8_extraction_idempotent :
    ∀ s : String, ExtractJSONFromString (ExtractJSONFromString s) = ExtractJSONFromString s := by
  intro s
  unfold ExtractJSONFromString
  rw [show (String.mk (extractJSONCore jsonOk s.data)).data = extractJSONCore jsonOk s.data
    from rfl]
  rw [extractJSONCore_idem]

/-- C10: a non-empty result of `ExtractJSONFromString` is a contiguous
substring of the input beginning exactly at the input's first `'{'` (the
characters before it contain no `'{'`, and the result starts with `'{'`), so
a candidate starting at a later brace is never returned; and an input whose
region from the first brace never parses at any depth-zero point yields the
empty result even though a standalone parseable JSON object appears later in
the text. -/
theorem claim_C10_result_begins_at_first_brace :
    (∀ s : String, ExtractJSONFromString s ≠ "" →
      (∃ suffix, s.data = s.data.takeWhile (fun c => c ≠ '{') ++
          (ExtractJSONFromString s).data ++ suffix) ∧
        (∀ c ∈ s.data.takeWhile (fun c => c ≠ '{'), c ≠ '{') ∧
        (ExtractJSONFromString s).data.head? = some '{') ∧
    ExtractJSONFromString ("\x7b\"a\": [\x7d \x7b\"b\":1\x7d") = ("") ∧
    ExtractJSONFromString ("\x7b\"b\":1\x7d") = ("\x7b\"b\":1\x7d") := by
  refine ⟨fun s h => ?_, by decide, by decide⟩
  have hcore : extractJSONCore jsonOk s.data ≠ [] := by
    intro hh
    apply h
    unfold ExtractJSONFromString
    rw [hh]
  have hstr : (ExtractJSONFromString s).data = extractJSONCore jsonOk s.data := rfl
  rcases extractJSONCore_structure jsonOk s.data hcore with ⟨⟨suffix, hdecomp⟩, hpre, hhead⟩
  exact ⟨⟨suffix, by rw [hstr]; exact hdecomp⟩, hpre, by rw [hstr]; exact hhead⟩

/-- Witness for C10 at a concrete input whose extraction result is non-empty. -/
theorem claim_C10_witness :
    (∃ suffix, ("x \x7b\"b\":1\x7d" : String).data =
        ("x \x7b\"b\":1\x7d" : String).data.takeWhile (fun c => c ≠ '{') ++
          (ExtractJSONFromString ("x \x7b\"b\":1\x7d")).data ++ suffix) ∧
      (∀ c ∈ ("x \x7b\"b\":1\x7d" : String).data.takeWhile (fun c => c ≠ '{'), c ≠ '{') ∧
      (ExtractJSONFromString ("x \x7b\"b\":1\x7d")).data.head? = some '{' :=
  claim_C10_result_begins_at_first_brace.1 ("x \x7b\"b\":1\x7d") (by decide)

/-! ## Part VIII: claims about the runtime -/

/-- C6: `ChatSession.Invoke text` appends a user-role message with the text,
calls the bound invoker with the session's system instructions and the full
ordered history, appends the reply as an agent-role message and returns it;
an invoker failure is propagated unchanged, no agent message is appended for
the failed attempt, and the appended user message remains; the system
instructions never change. -/
theorem claim_C6_chat_session_invoke (invoker : Invoker) (chat : ChatSession) (msg : String) :
    ((ChatSession.Invoke invoker chat msg).1.system = chat.system) ∧
    (∀ out, invoker chat.system (chat.messages ++ [⟨Role.user, msg⟩]) = Except.ok out →
      ChatSession.Invoke invoker chat msg =
        (⟨chat.system, chat.messages ++ [⟨Role.user, msg⟩, ⟨Role.agent, out⟩]⟩,
          Except.ok out)) ∧
    (∀ e, invoker chat.system (chat.messages ++ [⟨Role.user, msg⟩]) = Except.error e →
      ChatSession.Invoke invoker chat msg =
        (⟨chat.system, chat.messages ++ [⟨Role.user, msg⟩]⟩, Except.error e)) := by
  refine ⟨?_, fun out hout => ?_, fun e herr => ?_⟩
  · simp only [ChatSession.Invoke, ChatSession.Add]
    cases h : invoker chat.system (chat.messages ++ [⟨Role.user, msg⟩]) <;> simp [h]
  · simp only [ChatSession.Invoke, ChatSession.Add, hout]
    simp [List.append_assoc]
  · simp only [ChatSession.Invoke, ChatSession.Add, herr]

/-- Witness for C6: a successful and a failing concrete invocation. -/
theorem claim_C6_witness :
    ChatSession.Invoke invokerC6 ⟨"sys", []⟩ ("ping") =
      (⟨"sys", [⟨Role.user, "ping"⟩, ⟨Role.agent, "pong"⟩]⟩, Except.ok ("pong")) ∧
    ChatSession.Invoke invokerC6 ⟨"sys", [⟨Role.user, "a"⟩, ⟨Role.agent, "b"⟩]⟩ ("c") =
      (⟨"sys", [⟨Role.user, "a"⟩, ⟨Role.agent, "b"⟩, ⟨Role.user, "c"⟩]⟩,
        Except.error ("down")) :=
  ⟨(claim_C6_chat_session_invoke invokerC6 ⟨"sys", []⟩ ("ping")).2.1 ("pong") rfl,
    (claim_C6_chat_session_invoke invokerC6 ⟨"sys", [⟨Role.user, "a"⟩, ⟨Role.agent, "b"⟩]⟩
      ("c")).2.2 ("down") rfl⟩

/-- C9: `UnmarshalValidate` (src/runtime/utils.go) materialises the typed
target only after schema validation succeeds: for every payload, schema and
target slot, when validation does not succeed the call returns an error and
the target slot is left unchanged, so a caller never observes a
partially-populated, schema-violating value. -/
theorem claim_C9_validate_then_decode (C : Collab V) (data schema : String) (slot : Option V)
    (h : C.validate schema data ≠ VOutcome.valid) :
    (UnmarshalValidate C data schema slot).2 = slot ∧
    (∃ e, (UnmarshalValidate C data schema slot).1 = Except.error e) := by
  unfold UnmarshalValidate ValidateRawJSON
  cases hv : C.validate schema data with
  | err e => simp
  | invalid => simp
  | valid => exact absurd hv h

/-- Witness for C9: a payload rejected by the schema leaves the target
untouched. -/
theorem claim_C9_witness :
    (UnmarshalValidate collabC2 ("\x7b\"x\":1\x7d") ("REJECT") (none : Option String)).2 = none ∧
    (∃ e, (UnmarshalValidate collabC2 ("\x7b\"x\":1\x7d") ("REJECT")
      (none : Option String)).1 = Except.error e) :=
  claim_C9_validate_then_decode collabC2 ("\x7b\"x\":1\x7d") ("REJECT") none (by decide)

/-- The superseded revision in src/unnamed/part_006 decodes before
validating: a payload that parses but fails the schema is written into the
target before the invalid-output error is returned. -/
theorem legacy_unmarshal_validate_writes_before_validating :
    UnmarshalValidateLegacy collabC2 ("\x7b\"x\":1\x7d") ("REJECT") (none : Option String) =
      (Except.error GoError.invalidOutput, some ("\x7b\"x\":1\x7d")) := by
  rfl

/-- C2: for every request with no tool invoker configured, when the run
reaches the backend reply (input valid, template compiled, first call
succeeded) and either no JSON object can be extracted from the reply or the
extracted JSON fails output-schema validation, `Runtime.Invoke` returns the
`ErrInvalidOutput` condition and the output target is not populated. -/
theorem claim_C2_no_tools_invalid_output (C : Collab V) (cancelAt : Nat → Bool) (fuel : Nat)
    (req : Request V) {p reply : String} {sess₁ : ChatSession}
    (hnotools : req.toolInvoker = none)
    (hinput : ValidateJSON C req.input req.inputSchema = Except.ok ())
    (hprompt : Runtime.preparePrompt C req = Except.ok p)
    (hreply : ChatSession.Invoke C.invoker (NewChatSession req.instructions) p =
      (sess₁, Except.ok reply))
    (hbad : ExtractJSONFromString reply = "" ∨
      C.validate req.outputSchema (ExtractJSONFromString reply) = VOutcome.invalid) :
    (Runtime.Invoke C cancelAt fuel req).result = some (Except.error GoError.invalidOutput) ∧
    (Runtime.Invoke C cancelAt fuel req).output = none := by
  have hrun : Runtime.Invoke C cancelAt fuel req =
      ⟨some (unmarshalOutput C req reply).1, (unmarshalOutput C req reply).2,
        some sess₁, [Event.invokerCall]⟩ := by
    unfold NewChatSession at hreply
    simp only [Runtime.Invoke, NewChatSession, hinput, hprompt, hreply, hnotools]
  rw [hrun]
  unfold unmarshalOutput UnmarshalValidate ValidateRawJSON
  rcases hbad with hb | hb
  · simp [hb]
  · by_cases hempty : ExtractJSONFromString reply = ""
    · simp [hempty]
    · simp [hempty, hb]

/-- Witness for C2: the backend replies with a JSON object and the output
schema rejects it. -/
theorem claim_C2_witness :
    (Runtime.Invoke collabC2 (fun _ => false) 3 reqNoTools).result =
      some (Except.error GoError.invalidOutput) ∧
    (Runtime.Invoke collabC2 (fun _ => false) 3 reqNoTools).output = none :=
  claim_C2_no_tools_invalid_output collabC2 (fun _ => false) 3 reqNoTools rfl rfl rfl rfl
    (Or.inr rfl)

/-- C7: for every request whose template fails to parse or execute, or whose
input value fails input-schema validation, `Runtime.Invoke` returns an error
immediately: no backend call is issued (the event trace is empty) and no
chat session is ever created, so no message is appended to any session. -/
theorem claim_C7_config_errors_fatal (C : Collab V) (cancelAt : Nat → Bool) (fuel : Nat)
    (req : Request V)
    (h : (∃ e, C.parseTmpl req.promptTemplate = Except.error e) ∨
      (∃ e, C.execTmpl req.promptTemplate req.input = Except.error e) ∨
      (∃ data, C.marshal req.input = Except.ok data ∧
        C.validate req.inputSchema data = VOutcome.invalid)) :
    (∃ er, (Runtime.Invoke C cancelAt fuel req).result = some (Except.error er)) ∧
    (Runtime.Invoke C cancelAt fuel req).events = [] ∧
    (Runtime.Invoke C cancelAt fuel req).sess = none := by
  unfold Runtime.Invoke
  cases hv : ValidateJSON C req.input req.inputSchema with
  | error e =>
    exact ⟨⟨e, rfl⟩, rfl, rfl⟩
  | ok u =>
    rcases h with ⟨e, hp⟩ | ⟨e, hx⟩ | ⟨data, hm, hval⟩
    · have hpp : Runtime.preparePrompt C req = Except.error (GoError.templateParse e) := by
        unfold Runtime.preparePrompt Runtime.compilePrompt
        rw [hp]
      rw [hpp]
      exact ⟨⟨GoError.templateParse e, rfl⟩, rfl, rfl⟩
    · cases hpt : C.parseTmpl req.promptTemplate with
      | error e' =>
        have hpp : Runtime.preparePrompt C req = Except.error (GoError.templateParse e') := by
          unfold Runtime.preparePrompt Runtime.compilePrompt
          rw [hpt]
        rw [hpp]
        exact ⟨⟨GoError.templateParse e', rfl⟩, rfl, rfl⟩
      | ok w =>
        have hpp : Runtime.preparePrompt C req = Except.error (GoError.templateExec e) := by
          unfold Runtime.preparePrompt Runtime.compilePrompt
          rw [hpt, hx]
        rw [hpp]
        exact ⟨⟨GoError.templateExec e, rfl⟩, rfl, rfl⟩
    · exfalso
      unfold ValidateJSON ValidateRawJSON at hv
      simp only [hm] at hv
      simp only [hval] at hv
      simp at hv

/-- Witness for C7: a template that fails to parse yields an immediate error
with no backend call and no session. -/
theorem claim_C7_witness :
    (∃ er, (Runtime.Invoke collabC7 (fun _ => false) 3 reqNoTools).result =
      some (Except.error er)) ∧
    (Runtime.Invoke collabC7 (fun _ => false) 3 reqNoTools).events = [] ∧
    (Runtime.Invoke collabC7 (fun _ => false) 3 reqNoTools).sess = none :=
  claim_C7_config_errors_fatal collabC7 (fun _ => false) 3 reqNoTools
    (Or.inl ⟨"template broken", rfl⟩)

/-- C5: whenever the agent loop starts an iteration (which happens exactly
after a reply has been received, the initial one or the one following a
tool feed-back) and the cancellation signal is observed at that poll, the
loop terminates at once with the cancellation condition: no further invoker
call is made and no tool is invoked (the event trace is unchanged), the
session is unchanged, the output target stays unpopulated, and the
cancellation condition is distinct from the invalid-output condition.
Moreover, in a concrete run whose backend returns a non-final (tool-call)
reply and whose cancellation signal is then set, `Runtime.Invoke` returns
the cancellation condition after exactly the one initial backend call, with
no tool invocation. -/
theorem claim_C5_cancellation_stops_loop (C : Collab V) (cancelAt : Nat → Bool)
    (req : Request V) (tinv : String → V → Except String V) (fuel n : Nat) (out : String)
    (sess : ChatSession) (evs : List Event)
    (hc : cancelAt n = true) :
    (Runtime.agentLoop C cancelAt req tinv (fuel + 1) n out sess evs =
      ⟨some (Except.error GoError.cancelled), none, some sess, evs⟩) ∧
    GoError.cancelled ≠ GoError.invalidOutput ∧
    (Runtime.Invoke collabC5 (fun _ => true) 5 reqC5).result =
      some (Except.error GoError.cancelled) ∧
    (Runtime.Invoke collabC5 (fun _ => true) 5 reqC5).events = [Event.invokerCall] := by
  refine ⟨?_, by decide, rfl, rfl⟩
  simp [Runtime.agentLoop, hc]

/-- Witness for C5: the loop, entered with the cancellation signal set,
returns the cancellation condition without any further external call. -/
theorem claim_C5_witness :
    Runtime.agentLoop collabC5 (fun _ => true) reqC5 tinvOk 1 0 replyToolCall
      (NewChatSession ("")) [Event.invokerCall] =
      ⟨some (Except.error GoError.cancelled), none, some (NewChatSession ("")),
        [Event.invokerCall]⟩ :=
  (claim_C5_cancellation_stops_loop collabC5 (fun _ => true) reqC5 tinvOk 0 0 replyToolCall
    (NewChatSession ("")) [Event.invokerCall] rfl).1

/-- C4: in the agent loop a tool-invoker error is never fatal.  When an
iteration reaches the tool call (not cancelled, reply parsed to a non-final
response with a name and arguments, arguments decoded), then: if the tool
invoker fails with message `e`, the error is rendered as the textual message
`"ERR: " ++ e`, fed back into the chat session as the next turn, and the run
continues as the next loop iteration; if the tool invoker succeeds, the
result is fed back as the labelled message
`name ++ " OUTPUT: " ++ serialised result` and the loop likewise
continues.  In both cases the trace records the tool call and the follow-up
invoker call. -/
theorem claim_C4_tool_error_recoverable (C : Collab V) (cancelAt : Nat → Bool)
    (req : Request V) (tinv : String → V → Except String V) (fuel n : Nat) (out : String)
    (sess : ChatSession) (evs : List Event) (resp : ToolResponse V) (a inV : V)
    (rawArgs : String)
    (hc : cancelAt n = false)
    (hparse : parseToolResponse C out = Except.ok resp)
    (hdone : resp.done = false)
    (hname : resp.name ≠ "")
    (hargs : resp.args = some a)
    (hser : C.marshal (some a) = Except.ok rawArgs)
    (hunm : req.toolUnmarshaller resp.name rawArgs = Except.ok inV) :
    (∀ e sess₁ out₁, tinv resp.name inV = Except.error e →
      ChatSession.Invoke C.invoker sess ("ERR: " ++ e) = (sess₁, Except.ok out₁) →
      Runtime.agentLoop C cancelAt req tinv (fuel + 1) n out sess evs =
        Runtime.agentLoop C cancelAt req tinv fuel (n + 1) out₁ sess₁
          (evs ++ [Event.toolCall resp.name, Event.invokerCall])) ∧
    (∀ v raw sess₁ out₁, tinv resp.name inV = Except.ok v →
      C.marshal (some v) = Except.ok raw →
      ChatSession.Invoke C.invoker sess (resp.name ++ " OUTPUT: " ++ raw) =
        (sess₁, Except.ok out₁) →
      Runtime.agentLoop C cancelAt req tinv (fuel + 1) n out sess evs =
        Runtime.agentLoop C cancelAt req tinv fuel (n + 1) out₁ sess₁
          (evs ++ [Event.toolCall resp.name, Event.invokerCall])) := by
  have hcfalse : ¬(cancelAt n = true) := by
    rw [hc]
    decide
  refine ⟨fun e sess₁ out₁ htool hsess => ?_, fun v raw sess₁ out₁ htool hser2 hsess => ?_⟩
  · have hcall : Runtime.callTool C tinv resp.name inV = "ERR: " ++ e := by
      unfold Runtime.callTool
      simp only [htool]
    simp [Runtime.agentLoop, hcfalse, hparse, hdone, hname, hargs, hser, hunm, hcall, hsess]
  · have hcall : Runtime.callTool C tinv resp.name inV = resp.name ++ " OUTPUT: " ++ raw := by
      unfold Runtime.callTool
      simp only [htool, hser2]
    simp [Runtime.agentLoop, hcfalse, hparse, hdone, hname, hargs, hser, hunm, hcall, hsess]

/-- Witness for C4: a failing tool makes the loop continue with the
`ERR:`-message fed back; a succeeding tool makes it continue with the
name-labelled output message fed back. -/
theorem claim_C4_witness :
    (Runtime.agentLoop collabC4 (fun _ => false) reqC4 tinvErr 2 0 replyToolCall
      ⟨"", []⟩ [] =
      Runtime.agentLoop collabC4 (fun _ => false) reqC4 tinvErr 1 1 replyDone
        ⟨"", [⟨Role.user, "ERR: boom"⟩, ⟨Role.agent, replyDone⟩]⟩
        [Event.toolCall ("t"), Event.invokerCall]) ∧
    (Runtime.agentLoop collabC5 (fun _ => false) reqC5 tinvOk 2 0 replyToolCall
      ⟨"", []⟩ [] =
      Runtime.agentLoop collabC5 (fun _ => false) reqC5 tinvOk 1 1 replyToolCall
        ⟨"", [⟨Role.user, "t OUTPUT: \x7b\"r\":1\x7d"⟩, ⟨Role.agent, replyToolCall⟩]⟩
        [Event.toolCall ("t"), Event.invokerCall]) :=
  ⟨(claim_C4_tool_error_recoverable collabC4 (fun _ => false) reqC4 tinvErr 1 0 replyToolCall
      ⟨"", []⟩ [] ⟨false, none, "t", some ("\x7b\x7d")⟩ ("\x7b\x7d") ("\x7b\x7d") ("\x7b\x7d")
      rfl rfl rfl (by decide) rfl rfl rfl).1 ("boom") _ _ rfl rfl,
    (claim_C4_tool_error_recoverable collabC5 (fun _ => false) reqC5 tinvOk 1 0 replyToolCall
      ⟨"", []⟩ [] ⟨false, none, "t", some ("\x7b\x7d")⟩ ("\x7b\x7d") ("\x7b\x7d") ("\x7b\x7d")
      rfl rfl rfl (by decide) rfl rfl rfl).2 ("\x7b\"r\":1\x7d") ("\x7b\"r\":1\x7d") _ _
      rfl rfl rfl⟩

theorem append_ne_empty_right (a b : String) (hb : b ≠ "") : a ++ b ≠ "" := by
  intro h
  apply hb
  have hd := congrArg String.data h
  rw [String.data_append] at hd
  exact String.ext (by rw [(List.append_eq_nil.mp hd).2])

theorem append_ne_empty_left (a b : String) (ha : a ≠ "") : a ++ b ≠ "" := by
  intro h
  apply ha
  have hd := congrArg String.data h
  rw [String.data_append] at hd
  exact String.ext (by rw [(List.append_eq_nil.mp hd).1])

/-- C3: the rendered prompt is exactly the concatenation, in this fixed
order, of the [SYSTEM INSTRUCTIONS], [WORKFLOW], [TOOLS], [INPUT],
[OUTPUT FORMAT], [GUIDELINES] and [USER PROMPT] sections (user prompt
last), where each section text is present exactly when its trigger holds:
non-empty instructions for [SYSTEM INSTRUCTIONS], at least one configured
tool for [WORKFLOW] and [TOOLS], skip-input false for [INPUT], and
[OUTPUT FORMAT], [GUIDELINES], [USER PROMPT] always. -/
theorem claim_C3_prompt_section_order (marshal : Option V → Except String String)
    (schemaJSON : String → String) (userPrompt : String) (req : Request V) :
    PromptBuilder.Build marshal schemaJSON userPrompt req =
      PromptBuilder.writeInstructions "" req ++
        (if 0 < req.toolSpecs.length then PromptBuilder.workflowText else "") ++
        PromptBuilder.writeTools schemaJSON "" req.toolSpecs ++
        (if req.skipInput then "" else PromptBuilder.writeInput marshal "" req.input) ++
        PromptBuilder.writeOutputFormat schemaJSON "" req.outputSchema
          (0 < req.toolSpecs.length) ++
        PromptBuilder.guidelinesText ++
        PromptBuilder.writeUserPrompt "" userPrompt ∧
    (req.instructions = "" → PromptBuilder.writeInstructions "" req = "") ∧
    (req.instructions ≠ "" → PromptBuilder.writeInstructions "" req ≠ "") ∧
    PromptBuilder.workflowText ≠ "" ∧
    (req.toolSpecs.length = 0 → PromptBuilder.writeTools schemaJSON "" req.toolSpecs = "") ∧
    (0 < req.toolSpecs.length → PromptBuilder.writeTools schemaJSON "" req.toolSpecs ≠ "") ∧
    PromptBuilder.writeInput marshal "" req.input ≠ "" ∧
    PromptBuilder.writeOutputFormat schemaJSON "" req.outputSchema
      (0 < req.toolSpecs.length) ≠ "" ∧
    PromptBuilder.guidelinesText ≠ "" ∧
    PromptBuilder.writeUserPrompt "" userPrompt ≠ "" := by
  refine ⟨?_, fun h => ?_, fun h => ?_, by decide, fun h => ?_, fun h => ?_, ?_, ?_, by decide, ?_⟩
  · rw [String.ext_iff]
    by_cases h1 : req.instructions = "" <;> by_cases h2 : 0 < req.toolSpecs.length <;>
      by_cases h3 : req.skipInput <;>
      simp [PromptBuilder.Build, PromptBuilder.writeInstructions, PromptBuilder.writeWorkflow,
        PromptBuilder.writeTools, PromptBuilder.writeInput, PromptBuilder.writeOutputFormat,
        PromptBuilder.writeGuidelines, PromptBuilder.writeUserPrompt, h1, h2, h3,
        String.data_append, List.append_assoc]
  · unfold PromptBuilder.writeInstructions
    rw [if_pos h]
  · unfold PromptBuilder.writeInstructions
    rw [if_neg h]
    exact append_ne_empty_right _ ("\n\n") (by decide)
  · unfold PromptBuilder.writeTools
    rw [if_neg (by omega)]
  · unfold PromptBuilder.writeTools
    rw [if_pos h]
    exact append_ne_empty_left _ _ (append_ne_empty_right _ ("\n[TOOLS]\n\n") (by decide))
  · unfold PromptBuilder.writeInput
    exact append_ne_empty_right _ ("\n") (by decide)
  · unfold PromptBuilder.writeOutputFormat
    by_cases h2 : 0 < req.toolSpecs.length
    · rw [if_pos (by simpa using h2)]
      unfold PromptBuilder.outputFormatTools
      exact append_ne_empty_right _ _ (append_ne_empty_left _ _ (by decide))
    · rw [if_neg (by simpa using h2)]
      unfold PromptBuilder.outputFormatNoTools
      exact append_ne_empty_right _ _ (append_ne_empty_left _ _ (by decide))
  · unfold PromptBuilder.writeUserPrompt
    exact append_ne_empty_right _ ("\n") (by decide)

/-- Witness for C3 at a concrete request: with non-empty instructions the
[SYSTEM INSTRUCTIONS] section is present, and with a configured tool the
[TOOLS] section is present. -/
theorem claim_C3_witness :
    PromptBuilder.writeInstructions "" reqC3 ≠ "" ∧
    PromptBuilder.writeTools (fun s => s) "" reqC3.toolSpecs ≠ "" :=
  ⟨(claim_C3_prompt_section_order (fun x => Except.ok (x.getD ("null"))) (fun s => s)
      ("U") reqC3).2.2.1 (by decide),
    (claim_C3_prompt_section_order (fun x => Except.ok (x.getD ("null"))) (fun s => s)
      ("U") reqC3).2.2.2.2.2.1 (by decide)⟩
